import Mathlib

/-!
Shallow embedding of `src/bobo-cli.py`, a reconciliation tool that merges
per-item sales figures from a multi-sheet workbook with authoritative totals
from a point-of-sale CSV export.

Modelling conventions:
* Spreadsheet / dataframe cells are an inductive `Cell`; a nullable cell is
  `Option Cell` with `none` playing the role of pandas `NaN`.
* Python `float` money values are modelled as exact rationals (`ℚ`); the
  decimal strings appearing in the claims are exactly representable, so no
  rounding behaviour is lost on the inputs the claims speak about.
* A float64 cell holding an integral value (what pandas produces for integer
  spreadsheet cells) is `Cell.floatInt n`; Python renders it as `"n.0"`.
* Fallible Python code (`int(...)`, `float(...)`, `pd.concat([])`) returns
  `Option`, with `none` standing for the raised exception.
-/

-- Money values are exact rationals; let the kernel evaluate their
-- arithmetic so that concrete runs of the embedded code can be checked
-- by `decide`.
unseal Rat.add Rat.mul Rat.inv Rat.sub Nat.gcd Rat.ofScientific

/-- A scalar value held in a dataframe cell.  `q` is a money value
(an arbitrary float, modelled as the exact rational it denotes);
`floatInt` is a float64 holding an integral value. -/
inductive Cell where
  | str (s : String)
  | int (n : Int)
  | floatInt (n : Int)
  | q (x : ℚ)
  deriving DecidableEq, Repr

/-- The digit character for `n < 10` (otherwise a dummy). -/
def decDigit (n : Nat) : Char :=
  match n with
  | 0 => '0' | 1 => '1' | 2 => '2' | 3 => '3' | 4 => '4'
  | 5 => '5' | 6 => '6' | 7 => '7' | 8 => '8' | 9 => '9'
  | _ => '*'

/-- Fuel-driven helper for the decimal representation (structural recursion
on the fuel so that the kernel can evaluate it). -/
def natDigitsReprAux : Nat → Nat → List Char
  | 0, _ => []
  | fuel + 1, n =>
    if n < 10 then [decDigit n]
    else natDigitsReprAux fuel (n / 10) ++ [decDigit (n % 10)]

/-- Decimal digit list of a natural number, most significant first,
as produced by Python's `str` on a nonnegative `int`. -/
def natDigitsRepr (n : Nat) : List Char := natDigitsReprAux (n + 1) n

/-- Any sufficient fuel computes the same digit list. -/
theorem natDigitsReprAux_eq (n : Nat) :
    ∀ f, n < f → natDigitsReprAux f n = natDigitsRepr n := by
  induction n using Nat.strong_induction_on with
  | _ n ih =>
    intro f hf
    match f, hf with
    | f + 1, hf =>
      by_cases h : n < 10
      · simp [natDigitsRepr, natDigitsReprAux, h]
      · have hdiv : n / 10 < n := Nat.div_lt_self (by omega) (by omega)
        show natDigitsReprAux (f + 1) n = natDigitsReprAux (n + 1) n
        simp only [natDigitsReprAux, if_neg h]
        rw [ih (n / 10) hdiv f (by omega), ih (n / 10) hdiv n (by omega)]

/-- The defining recurrence of `natDigitsRepr`. -/
theorem natDigitsRepr_def (n : Nat) :
    natDigitsRepr n =
      if n < 10 then [decDigit n]
      else natDigitsRepr (n / 10) ++ [decDigit (n % 10)] := by
  by_cases h : n < 10
  · simp [natDigitsRepr, natDigitsReprAux, h]
  · have hdiv : n / 10 < n := Nat.div_lt_self (by omega) (by omega)
    conv_lhs => rw [natDigitsRepr]
    simp only [natDigitsReprAux, if_neg h]
    rw [natDigitsReprAux_eq (n / 10) n (by omega)]

/-- Python `str` of an `int` value: decimal representation, `-` sign for
negative numbers, no leading zeros. -/
def intRepr (n : Int) : String :=
  if n < 0 then ⟨'-' :: natDigitsRepr n.natAbs⟩ else ⟨natDigitsRepr n.toNat⟩

/-- Python `str.strip()` on a list of characters: remove leading and
trailing whitespace. -/
def stripChars (l : List Char) : List Char :=
  ((l.dropWhile Char.isWhitespace).reverse.dropWhile Char.isWhitespace).reverse

/-- Python `str.strip()`. -/
def pyStrip (s : String) : String := ⟨stripChars s.data⟩

/-- Digit-sequence part of Python `int(str)`: consumes decimal digits with
single underscores allowed between digits (Python's numeric-literal
underscore rule), accumulating the value; `none` models `ValueError`. -/
def parseDigits : List Char → Nat → Option Nat
  | [], acc => some acc
  | c :: rest, acc =>
    if c.isDigit then parseDigits rest (acc * 10 + (c.toNat - 48))
    else if c = '_' then
      match rest with
      | c2 :: rest2 =>
        if c2.isDigit then parseDigits rest2 (acc * 10 + (c2.toNat - 48)) else none
      | [] => none
    else none

/-- Unsigned part of Python `int(str)`: the first character must be a digit
(in particular a leading underscore is rejected). -/
def parseUnsigned (l : List Char) : Option Nat :=
  match l with
  | [] => none
  | c :: rest => if c.isDigit then parseDigits (c :: rest) 0 else none

/-- Signed decimal integer parse, after whitespace stripping: an optional
single `+`/`-` then a digit sequence. -/
def parseSigned (l : List Char) : Option Int :=
  match l with
  | [] => none
  | c :: rest =>
    if c = '+' then (parseUnsigned rest).map Int.ofNat
    else if c = '-' then (parseUnsigned rest).map (fun m => -(m : Int))
    else (parseUnsigned (c :: rest)).map Int.ofNat

/-- Python `int(s)` for a string argument (decimal case): strips surrounding
whitespace, accepts an optional sign and a digit sequence; anything else —
in particular `"123.0"` — raises `ValueError`, modelled as `none`. -/
def pyIntOfString (s : String) : Option Int :=
  parseSigned (pyStrip s).data

/-- Python `str()` of a cell value, as applied by
`all_aisle_data["Mashgin ID"].astype(str)` (src/bobo-cli.py line 34).
A string is returned verbatim, an `int` as its decimal representation and an
integral float64 as that representation followed by `".0"`.  (`str` of a
non-integral float uses shortest-roundtrip float formatting, which is outside
the modelled fragment and not exercised by any claim; money cells are never
passed through `str` in the modelled pipeline.) -/
def pyStr : Cell → String
  | .str s => s
  | .int n => intRepr n
  | .floatInt n => intRepr n ++ ".0"
  | .q _ => ""

/-- Identifier normalization of the ledger loader (src/bobo-cli.py line 65):
`lambda x: str(int(x)).strip() if pd.notnull(x) and x != "" else ""` applied
to the string-typed `Pos Id` column.  `none` input models a `NaN` cell;
`none` output models the `ValueError` raised by `int`. -/
def normLedgerId : Option String → Option String
  | none => some ""
  | some s =>
    if s = "" then some ""
    else (pyIntOfString s).map (fun n => pyStrip (intRepr n))

-- Basic sanity checks of the machinery on concrete values.
example : intRepr 123 = "123" := by decide
example : intRepr (-45) = "-45" := by decide
example : pyIntOfString "007" = some 7 := by decide
example : pyIntOfString "123.0" = none := by decide
example : pyIntOfString " -42 " = some (-42) := by decide
example : pyIntOfString "1_0" = some 10 := by decide
example : pyIntOfString "_1" = none := by decide
example : pyIntOfString "1__0" = none := by decide
example : normLedgerId (some "123.0") = none := by decide
example : normLedgerId (some "007") = some "7" := by decide
example : pyStr (Cell.floatInt 123) = "123.0" := by decide

/-! ## Substring matching and the Section Extractor -/

/-- Python's `needle in hay` substring test, on character lists. -/
def listContainsSub : List Char → List Char → Bool
  | needle, [] => needle.isEmpty
  | needle, c :: t => needle.isPrefixOf (c :: t) || listContainsSub needle t

/-- Python's `needle in hay` substring test on strings (case-sensitive). -/
def pyIn (needle hay : String) : Bool := listContainsSub needle.data hay.data

/-- Identifier marker used by the Workbook Loader's extractor
(src/bobo-cli.py line 22). -/
def loaderIdMarker : String := "Mashgin ID #"

/-- Identifier marker used by the Reconciler's column scan
(src/bobo-cli.py line 91). -/
def mergeIdMarker : String := "Mashgin ID"

/-- Identifier marker used by the Report Writer's column scan
(src/bobo-cli.py line 168) — note the missing space before `#`. -/
def writerIdMarker : String := "Mashgin ID#"

/-- Amount marker shared by all three column scans
(src/bobo-cli.py lines 24, 93, 170). -/
def amountMarker : String := "Sales $"

/-- The Section Extractor column scan, shared (up to the marker strings) by
`load_aisle_data` (lines 21–28), `merge_data` (lines 90–93) and
`save_report` (lines 167–170): position `i` yields a Section exactly when
header `i` contains the identifier marker and the immediately following
header exists and contains the amount marker. -/
def dfFindPairs (idMarker amtMarker : String) (headers : List String) : List Nat :=
  (List.range headers.length).filter fun i =>
    pyIn idMarker (headers.getD i "") &&
      decide (i + 1 < headers.length) &&
      pyIn amtMarker (headers.getD (i + 1) "")

example : dfFindPairs loaderIdMarker amountMarker ["Mashgin ID #", "Sales $"] = [0] := by decide
example : dfFindPairs writerIdMarker amountMarker ["Mashgin ID #", "Sales $"] = [] := by decide
example :
    dfFindPairs loaderIdMarker amountMarker
      ["x", "Mashgin ID #", "Sales $", "Mashgin ID # 2", "Sales $ 2"] = [1, 3] := by decide

/-! ## The Reconciler (`merge_data`) -/

/-- One row of the Ledger Table produced by `load_import_csv`: a normalized
identifier, the parsed authoritative amount and the integer count. -/
structure LedgerRow where
  id : String
  sales : ℚ
  count : Int
  deriving DecidableEq, Repr

/-- A pandas dataframe: named columns and rows of nullable cells. -/
structure DF where
  cols : List String
  rows : List (List (Option Cell))
  deriving DecidableEq, Repr

/-- Key comparison done by `pd.merge(..., on="Mashgin ID")` between an aisle
cell and a ledger identifier: a match requires a string cell equal to the
ledger key (a `NaN` cell matches no string key). -/
def cellKeyEq (c : Option Cell) (s : String) : Bool :=
  match c with
  | some (Cell.str t) => t == s
  | _ => false

/-- The ledger row joined to a given aisle identifier cell.  `List.find?` is
an adequate model of the left join because `load_import_csv` leaves at most
one ledger row per identifier (a duplicated right key would in fact make the
column assignment on line 115 fail on length mismatch, which is why the
theorems below carry the uniqueness hypothesis). -/
def ledgerLookup (idf : List LedgerRow) (c : Option Cell) : Option LedgerRow :=
  idf.find? fun r => cellKeyEq c r.id

/-- The per-row effect of one section update in `merge_data` (lines 96–115):
for pair position `i`, the identifier is read from the *original* row (the
section is extracted from `aisle_df`, line 97) and, when a ledger row
matches, the amount cell at `i + 1` is overwritten with the ledger amount
(`combine_first`, line 111); otherwise the row is left unchanged. -/
def mergeRowUpdate (idf : List LedgerRow) (orig : List (Option Cell))
    (cur : List (Option Cell)) (i : Nat) : List (Option Cell) :=
  match ledgerLookup idf (orig.getD i none) with
  | some lr => cur.set (i + 1) (some (Cell.q lr.sales))
  | none => cur

/-- `merge_data` (src/bobo-cli.py lines 86–131): scans the aisle frame's
columns for (identifier, amount) pairs and overwrites each amount column
with the left-joined ledger amounts, falling back to the original value
where no ledger row matches.  The column list is returned unchanged — the
function only ever assigns to existing amount columns. -/
def merge_data (adf : DF) (idf : List LedgerRow) : DF :=
  { cols := adf.cols
    rows := adf.rows.map fun row =>
      (dfFindPairs mergeIdMarker amountMarker adf.cols).foldl
        (mergeRowUpdate idf row) row }

/-- The Canonical Fact Table produced by `load_aisle_data` as a dataframe:
columns `["Mashgin ID", "Sales $"]`, one row per (identifier, amount) fact,
identifiers already string-normalized and amounts non-null (line 33 drops
all rows containing `NaN`). -/
def canonicalDF (facts : List (String × ℚ)) : DF :=
  { cols := ["Mashgin ID", "Sales $"]
    rows := facts.map fun p => [some (Cell.str p.1), some (Cell.q p.2)] }

example :
    (merge_data (canonicalDF [("1", 10), ("2", 20)]) [⟨"1", 100, 3⟩]).rows =
      [[some (Cell.str "1"), some (Cell.q 100)],
       [some (Cell.str "2"), some (Cell.q 20)]] := by decide
example :
    (merge_data (canonicalDF [("1", 10)]) [⟨"1", 100, 3⟩]).cols =
      ["Mashgin ID", "Sales $"] := by decide

/-! ## The Workbook Loader (`load_aisle_data`) and `main` sequencing -/

/-- ASCII case folding, modelling Python `str.lower()` on the sheet names in
scope (the source compares against the ASCII literal `"aisle 1"`). -/
def pyLowerStr (s : String) : String := ⟨s.data.map Char.toLower⟩

/-- The sheet-selection test of `load_aisle_data` (src/bobo-cli.py line 14):
`sheet_name.lower() == "aisle 1"`. -/
def sheetSelected (name : String) : Bool := pyLowerStr name == "aisle 1"

/-- One worksheet as read by `pd.read_excel(..., header=1)`: the sheet name
and the header row used for section discovery (the second spreadsheet row). -/
structure Sheet where
  name : String
  headers : List String
  deriving DecidableEq, Repr

/-- All section positions collected over the selected sheets — one list entry
per section appended to `aisle_data` (src/bobo-cli.py lines 13–28),
tagged with the position of the identifier column. -/
def loadAisleSections (sheets : List Sheet) : List Nat :=
  ((sheets.filter fun sh => sheetSelected sh.name).map
    (fun sh => dfFindPairs loaderIdMarker amountMarker sh.headers)).flatten

/-- `load_aisle_data`'s overall outcome (line 33): `pd.concat(aisle_data)`
raises `ValueError` when `aisle_data` is the empty list, i.e. when no
section was found in any selected sheet; `none` models that exception. -/
def load_aisle_data (sheets : List Sheet) : Option (List Nat) :=
  if loadAisleSections sheets = [] then none else some (loadAisleSections sheets)

/-- The per-sheet raw tables kept for the Report Writer
(`sheet_data[sheet_name] = df`, src/bobo-cli.py line 29): the selected
sheets, stored unmodified. -/
def rawSheetData (sheets : List Sheet) : List Sheet :=
  sheets.filter fun sh => sheetSelected sh.name

/-- How far a run of `main` (src/bobo-cli.py lines 203–229) gets. -/
inductive RunStage where
  /-- An input path was missing; `main` returned before any mutation. -/
  | noInput
  /-- `load_aisle_data` raised; caught at line 228, so `save_report` —
  the only writer of the two outputs — was never reached. -/
  | abortedInLoad
  /-- `load_aisle_data` returned and the run proceeded to the later stages. -/
  | loadSucceeded
  deriving DecidableEq, Repr

/-- Observable effects of a run of `main`: whether the `.bak` backup of the
input workbook was written, and how far the pipeline got. -/
structure RunOutcome where
  backupWritten : Bool
  stage : RunStage
  deriving DecidableEq, Repr

/-- `main` (src/bobo-cli.py lines 203–229): both input paths are checked
first (lines 215–220); then `backup_file` runs (line 223) before
`load_aisle_data` (line 224), whose exception is caught at line 228. -/
def runMain (excelExists csvExists : Bool) (sheets : List Sheet) : RunOutcome :=
  if !excelExists || !csvExists then ⟨false, .noInput⟩
  else
    match load_aisle_data sheets with
    | none => ⟨true, .abortedInLoad⟩
    | some _ => ⟨true, .loadSucceeded⟩

example : runMain true true [⟨"Sheet1", ["a", "b"]⟩] = ⟨true, .abortedInLoad⟩ := by decide
example :
    runMain true true [⟨"Aisle 1", ["Mashgin ID #", "Sales $"]⟩] =
      ⟨true, .loadSucceeded⟩ := by decide

/-! ## Canonical Fact Table assembly: `dropna` and `astype(str)` -/

/-- pandas `isna` on a nullable cell. -/
def isna (c : Option Cell) : Bool := c.isNone

/-- `DataFrame.dropna()` with default arguments on the concatenated
two-column section rows (src/bobo-cli.py line 33): a row is dropped as soon
as *either* field is missing. -/
def dropnaPairs (l : List (Option Cell × Option Cell)) :
    List (Option Cell × Option Cell) :=
  l.filter fun p => !(isna p.1 || isna p.2)

/-- `astype(str)` on one nullable cell; pandas renders a `NaN` as the string
`"nan"` (unreachable after `dropna`, but that is what the library does). -/
def astypeStr (c : Option Cell) : String :=
  match c with
  | some c => pyStr c
  | none => "nan"

/-- The row pipeline of `load_aisle_data` lines 33–34 on the concatenated
section rows: `dropna()` then string conversion of the identifier column. -/
def loadCanonicalRows (l : List (Option Cell × Option Cell)) :
    List (String × Option Cell) :=
  (dropnaPairs l).map fun p => (astypeStr p.1, p.2)

example :
    loadCanonicalRows [(some (Cell.int 5), none), (some (Cell.int 6), some (Cell.q 2))] =
      [("6", some (Cell.q 2))] := by decide

/-! ## The Ledger Loader (`load_import_csv`): duplicate collapse -/

/-- `Series.duplicated().any()` (src/bobo-cli.py line 72): does some value
occur more than once in the list? -/
def listHasDup (l : List String) : Bool :=
  match l with
  | [] => false
  | x :: t => t.contains x || listHasDup t

/-- Lexicographic comparison of strings by code points, as pandas sorts
`groupby` keys. -/
def charListLt : List Char → List Char → Bool
  | [], [] => false
  | [], _ :: _ => true
  | _ :: _, [] => false
  | a :: as, b :: bs => if a < b then true else if b < a then false else charListLt as bs

/-- `a ≤ b` in the groupby key order. -/
def strLeB (a b : String) : Bool := !(charListLt b.data a.data)

/-- Ordered insertion for the groupby key sort. -/
def insertSortedStr (x : String) : List String → List String
  | [] => [x]
  | y :: t => if strLeB x y then x :: y :: t else y :: insertSortedStr x t

/-- Insertion sort for the groupby key order. -/
def sortStr : List String → List String
  | [] => []
  | x :: t => insertSortedStr x (sortStr t)

/-- The keys of `groupby("Mashgin ID")`: the distinct identifiers, in the
sorted order pandas produces (`sort=True` default). -/
def groupKeys (rows : List LedgerRow) : List String :=
  sortStr (rows.map (fun r => r.id)).dedup

/-- The duplicate-collapse step of `load_import_csv` (src/bobo-cli.py lines
72–82): when some identifier is duplicated, replace the frame by
`groupby("Mashgin ID", as_index=False).agg({"Sales $": "sum", "Count": "sum"})`;
otherwise the frame is returned as-is. -/
def collapseDuplicates (rows : List LedgerRow) : List LedgerRow :=
  if listHasDup (rows.map fun r => r.id) then
    (groupKeys rows).map fun k =>
      { id := k
        sales := ((rows.filter fun x => x.id == k).map fun x => x.sales).sum
        count := ((rows.filter fun x => x.id == k).map fun x => x.count).sum }
  else rows

example :
    collapseDuplicates [⟨"7", 10, 1⟩, ⟨"7", 5, 2⟩] = [⟨"7", 15, 3⟩] := by decide
example :
    collapseDuplicates [⟨"9", 1, 1⟩, ⟨"7", 10, 1⟩, ⟨"7", 5, 2⟩] =
      [⟨"7", 15, 3⟩, ⟨"9", 1, 1⟩] := by decide
example :
    collapseDuplicates [⟨"9", 1, 1⟩, ⟨"7", 10, 1⟩] = [⟨"9", 1, 1⟩, ⟨"7", 10, 1⟩] := by decide

/-! ## The money amount parser (`convert_currency_to_float`) -/

/-- Digit-list value, most significant first. -/
def digitsVal (l : List Char) : Nat :=
  l.foldl (fun a c => a * 10 + (c.toNat - 48)) 0

/-- Python `float(str)` on an unsigned decimal numeral: integer part,
optional `.` and fractional part, at least one digit overall (`"5."`,
`".5"`, `"5.5"`, `"5"` are accepted; `""`, `"."`, `"a"` raise).  Exponent,
`inf` and `nan` forms are outside the modelled fragment: no string reaching
this function in the modelled pipeline contains a letter. -/
def pyFloatCore (l : List Char) : Option ℚ :=
  match l.dropWhile Char.isDigit with
  | [] =>
    if (l.takeWhile Char.isDigit).isEmpty then none
    else some ((digitsVal (l.takeWhile Char.isDigit) : ℚ))
  | c :: fp =>
    if c = '.' && fp.all Char.isDigit &&
        !((l.takeWhile Char.isDigit).isEmpty && fp.isEmpty) then
      some ((digitsVal (l.takeWhile Char.isDigit) : ℚ) +
        (digitsVal fp : ℚ) / (10 : ℚ) ^ fp.length)
    else none

/-- Python `float(s)` for a string: strip whitespace, optional sign, then an
unsigned decimal numeral. -/
def pyFloatOfString (s : String) : Option ℚ :=
  match (pyStrip s).data with
  | [] => none
  | c :: rest =>
    if c = '+' then pyFloatCore rest
    else if c = '-' then (pyFloatCore rest).map (fun x => -x)
    else pyFloatCore (c :: rest)

/-- Removal of the currency symbol and thousands separators:
`value.replace('$', '').replace(',', '')` (src/bobo-cli.py line 141) —
note that *every* occurrence of `$` and `,` is removed. -/
def stripCurrencyChars (s : String) : String :=
  ⟨s.data.filter fun c => !(c = '$' || c = ',')⟩

/-- `convert_currency_to_float` (src/bobo-cli.py lines 138–142) on a string
cell: strip `$` and `,`, then `float(...)`; `none` models the raised
`ValueError`. -/
def convert_currency_to_float (value : String) : Option ℚ :=
  pyFloatOfString (stripCurrencyChars value)

example : convert_currency_to_float "$1,234.50" = some (1234.5 : ℚ) := by decide
example : convert_currency_to_float "1234.5" = some (1234.5 : ℚ) := by decide
example : convert_currency_to_float "" = none := by decide
example : convert_currency_to_float "," = none := by decide
example : convert_currency_to_float "5." = some (5 : ℚ) := by decide
example : convert_currency_to_float ".5" = some (1/2 : ℚ) := by decide
example : convert_currency_to_float "$," = none := by decide

/-- The fractional-tail check of the grammar: after the `[0-9,]+` block the
string must end, or continue with `.` followed by one or more digits. -/
def fracCheck : List Char → Bool
  | [] => true
  | c :: fp => c == '.' && !fp.isEmpty && fp.all Char.isDigit

/-- The grammar `[$]?[0-9,]+(\.[0-9]+)?` from the claimed totality
invariant, as a full-string recognizer (the spec's words, stated only to be
compared with the implementation). -/
def grammarMatch (s : String) : Bool :=
  let l := if s.data.head? = some '$' then s.data.tail else s.data
  !(l.takeWhile fun c => c.isDigit || c == ',').isEmpty &&
    fracCheck (l.dropWhile fun c => c.isDigit || c == ',')

example : grammarMatch "$1,234.50" = true := by decide
example : grammarMatch "," = true := by decide
example : grammarMatch "" = false := by decide
example : grammarMatch "$1,234." = false := by decide
example : grammarMatch "1.2.3" = false := by decide

/-! ## Lemmas: decimal representation and the `int`/`str` round trip -/

/-- Character-level facts about the ten digit characters. -/
theorem decDigit_props (m : Nat) (hm : m < 10) :
    (decDigit m).isDigit = true ∧ (decDigit m).isWhitespace = false ∧
      decDigit m ≠ '+' ∧ decDigit m ≠ '-' ∧ decDigit m ≠ '_' ∧
      (decDigit m).toNat = 48 + m := by
  interval_cases m <;> exact ⟨by decide, by decide, by decide, by decide, by decide, by decide⟩

/-- Every character of the decimal representation is a digit character. -/
theorem natDigitsRepr_mem (n : Nat) :
    ∀ c ∈ natDigitsRepr n, ∃ m, m < 10 ∧ c = decDigit m := by
  induction n using Nat.strong_induction_on with
  | _ n ih =>
    intro c hc
    rw [natDigitsRepr_def] at hc
    by_cases h : n < 10
    · rw [if_pos h] at hc
      simp only [List.mem_singleton] at hc
      exact ⟨n, h, hc⟩
    · rw [if_neg h] at hc
      rcases List.mem_append.mp hc with h1 | h2
      · exact ih (n / 10) (Nat.div_lt_self (by omega) (by omega)) c h1
      · simp only [List.mem_singleton] at h2
        exact ⟨n % 10, Nat.mod_lt _ (by omega), h2⟩

/-- The decimal representation is never empty. -/
theorem natDigitsRepr_ne_nil (n : Nat) : natDigitsRepr n ≠ [] := by
  rw [natDigitsRepr_def]
  by_cases h : n < 10 <;> simp [h]

/-- Value of the digit fold over a decimal representation. -/
theorem foldl_natDigitsRepr (n : Nat) : ∀ acc : Nat,
    (natDigitsRepr n).foldl (fun a c => a * 10 + (c.toNat - 48)) acc =
      acc * 10 ^ (natDigitsRepr n).length + n := by
  induction n using Nat.strong_induction_on with
  | _ n ih =>
    intro acc
    rw [natDigitsRepr_def]
    by_cases h : n < 10
    · simp [h, List.foldl, (decDigit_props n h).2.2.2.2.2]
    · have hdiv : n / 10 < n := Nat.div_lt_self (by omega) (by omega)
      rw [if_neg h, List.foldl_append, ih (n / 10) hdiv acc]
      simp only [List.foldl, List.length_append, List.length_singleton]
      rw [(decDigit_props (n % 10) (Nat.mod_lt _ (by omega))).2.2.2.2.2]
      rw [pow_succ]
      have := Nat.div_add_mod n 10
      ring_nf
      omega

/-- `parseDigits` succeeds on a pure digit list and computes the fold. -/
theorem parseDigits_all_digits :
    ∀ (l : List Char), (∀ c ∈ l, c.isDigit = true) → ∀ acc,
      parseDigits l acc = some (l.foldl (fun a c => a * 10 + (c.toNat - 48)) acc) := by
  intro l
  induction l with
  | nil => intro _ acc; rfl
  | cons c rest ih =>
    intro hall acc
    have hc : c.isDigit = true := hall c (by simp)
    rw [parseDigits.eq_def]
    simp only [hc, if_true, List.foldl_cons]
    exact ih (fun d hd => hall d (by simp [hd])) _

/-- `parseUnsigned` parses the decimal representation back to its value. -/
theorem parseUnsigned_natDigitsRepr (n : Nat) :
    parseUnsigned (natDigitsRepr n) = some n := by
  have hne := natDigitsRepr_ne_nil n
  have hmem := natDigitsRepr_mem n
  have hall : ∀ c ∈ natDigitsRepr n, c.isDigit = true := by
    intro c hc
    obtain ⟨m, hm, rfl⟩ := hmem c hc
    exact (decDigit_props m hm).1
  match hl : natDigitsRepr n with
  | [] => exact absurd hl hne
  | c :: rest =>
    have hc : c.isDigit = true := by
      apply hall; rw [hl]; simp
    simp only [parseUnsigned, hc, if_pos]
    rw [← hl, parseDigits_all_digits _ hall 0, foldl_natDigitsRepr n 0]
    simp

/-- No character of a decimal `int` representation is whitespace, so
`strip` leaves it unchanged. -/
theorem stripChars_no_ws (l : List Char)
    (h : ∀ c ∈ l, c.isWhitespace = false) : stripChars l = l := by
  have drop_self : ∀ (m : List Char), (∀ c ∈ m, c.isWhitespace = false) →
      m.dropWhile Char.isWhitespace = m := by
    intro m hm
    match m with
    | [] => rfl
    | c :: t =>
      rw [List.dropWhile_cons, hm c (by simp)]
      simp
  rw [stripChars, drop_self l h, drop_self l.reverse
    (fun c hc => h c (List.mem_reverse.mp hc)), List.reverse_reverse]

/-- Characters of `intRepr n` are digits or a leading minus sign. -/
theorem intRepr_chars (n : Int) :
    ∀ c ∈ (intRepr n).data, c = '-' ∨ ∃ m, m < 10 ∧ c = decDigit m := by
  intro c hc
  rw [intRepr] at hc
  by_cases h : n < 0
  · rw [if_pos h] at hc
    have hc' : c ∈ '-' :: natDigitsRepr n.natAbs := hc
    rcases List.mem_cons.mp hc' with rfl | h2
    · exact Or.inl rfl
    · exact Or.inr (natDigitsRepr_mem _ c h2)
  · rw [if_neg h] at hc
    exact Or.inr (natDigitsRepr_mem _ c hc)

/-- `str(int(...))` output contains no whitespace, so the trailing
`.strip()` on line 65 is a no-op. -/
theorem pyStrip_intRepr (n : Int) : pyStrip (intRepr n) = intRepr n := by
  have h : ∀ c ∈ (intRepr n).data, c.isWhitespace = false := by
    intro c hc
    rcases intRepr_chars n c hc with rfl | ⟨m, hm, rfl⟩
    · decide
    · exact (decDigit_props m hm).2.1
  show (⟨stripChars (intRepr n).data⟩ : String) = intRepr n
  rw [stripChars_no_ws _ h]

/-- The decimal representation of an `int` is a nonempty string. -/
theorem intRepr_ne_empty (n : Int) : intRepr n ≠ "" := by
  rw [intRepr]
  by_cases h : n < 0 <;> simp only [if_pos, if_neg, h]
  · intro hcon
    exact absurd (congrArg String.data hcon) (by simp)
  · intro hcon
    exact natDigitsRepr_ne_nil n.toNat (by simpa using congrArg String.data hcon)

/-- Python's `int` parses `str(n)` back to `n`: the integer/string round
trip of the normalizer is the identity. -/
theorem parseSigned_minus (rest : List Char) :
    parseSigned ('-' :: rest) = (parseUnsigned rest).map (fun m => -(m : Int)) := by
  rw [parseSigned.eq_def]
  simp

/-- `parseSigned` on an unsigned numeral defers to `parseUnsigned`. -/
theorem parseSigned_unsigned (c : Char) (rest : List Char)
    (h1 : c ≠ '+') (h2 : c ≠ '-') :
    parseSigned (c :: rest) = (parseUnsigned (c :: rest)).map Int.ofNat := by
  rw [parseSigned.eq_def]
  simp [h1, h2]

/-- Python's `int` parses `str(n)` back to `n`: the integer/string round
trip of the normalizer is the identity. -/
theorem pyIntOfString_intRepr (n : Int) : pyIntOfString (intRepr n) = some n := by
  rw [pyIntOfString, pyStrip_intRepr]
  rw [intRepr]
  by_cases h : n < 0
  · rw [if_pos h]
    show parseSigned ('-' :: natDigitsRepr n.natAbs) = some n
    rw [parseSigned_minus, parseUnsigned_natDigitsRepr]
    show some (-(n.natAbs : Int)) = some n
    exact congrArg some (by omega)
  · rw [if_neg h]
    show parseSigned (natDigitsRepr n.toNat) = some n
    have hne := natDigitsRepr_ne_nil n.toNat
    match hl : natDigitsRepr n.toNat with
    | [] => exact absurd hl hne
    | c :: rest =>
      obtain ⟨m, hm, rfl⟩ := natDigitsRepr_mem n.toNat c (by rw [hl]; simp)
      rw [parseSigned_unsigned _ _ ((decDigit_props m hm).2.2.1)
        ((decDigit_props m hm).2.2.2.1), ← hl, parseUnsigned_natDigitsRepr]
      show some ((n.toNat : Int)) = some n
      exact congrArg some (by omega)

/-- Leading-zero test: a digit string has a (spurious) leading zero when it
starts with `'0'` and has further characters. -/
def hasLeadingZero : List Char → Bool
  | c :: _ :: _ => c == '0'
  | _ => false

/-- The most significant digit of a positive number is not `'0'`. -/
theorem natDigitsRepr_head_ne_zero (n : Nat) (hn : 1 ≤ n) :
    ∀ c, (natDigitsRepr n).head? = some c → c ≠ '0' := by
  induction n using Nat.strong_induction_on with
  | _ n ih =>
    intro c hc
    rw [natDigitsRepr_def] at hc
    by_cases h : n < 10
    · rw [if_pos h] at hc
      simp only [List.head?_cons, Option.some.injEq] at hc
      subst hc
      interval_cases n <;> decide
    · rw [if_neg h] at hc
      have hne := natDigitsRepr_ne_nil (n / 10)
      match hl : natDigitsRepr (n / 10) with
      | [] => exact absurd hl hne
      | d :: rest =>
        rw [hl] at hc
        simp only [List.cons_append, List.head?_cons, Option.some.injEq] at hc
        subst hc
        exact ih (n / 10) (Nat.div_lt_self (by omega) (by omega)) (by omega) d
          (by rw [hl]; rfl)

/-- `str(int)` output never carries a leading zero. -/
theorem intRepr_no_leading_zero (n : Int) :
    hasLeadingZero (intRepr n).data = false := by
  rw [intRepr]
  by_cases h : n < 0
  · rw [if_pos h]
    show hasLeadingZero ('-' :: natDigitsRepr n.natAbs) = false
    match natDigitsRepr n.natAbs with
    | [] => rfl
    | d :: rest => rfl
  · rw [if_neg h]
    show hasLeadingZero (natDigitsRepr n.toNat) = false
    by_cases h0 : n.toNat = 0
    · rw [h0]
      decide
    · have hne := natDigitsRepr_ne_nil n.toNat
      match hl : natDigitsRepr n.toNat with
      | [] => exact absurd hl hne
      | [c] => rfl
      | c :: d :: rest =>
        have hc : c ≠ '0' := by
          apply natDigitsRepr_head_ne_zero n.toNat (by omega)
          rw [hl]; rfl
        show (c == '0') = false
        simp [hc]

/-- `str(int)` output never contains a decimal point. -/
theorem intRepr_no_dot (n : Int) : '.' ∉ (intRepr n).data := by
  intro hmem
  rcases intRepr_chars n '.' hmem with hdash | ⟨m, hm, hd⟩
  · exact absurd hdash (by decide)
  · revert hd
    interval_cases m <;> decide

/-! ## Claim C4 — identifier normalization of numeric-looking input -/

/-- C4 counterexample: the claim says the ledger loader's normalization
sends `"123.0"` to `"123"` and that the workbook loader's `astype(str)` on a
numeric cell yields the same integer string.  In fact the `Pos Id` column is
read with `dtype str`, so line 65 computes `int("123.0")`, which raises
`ValueError` (modelled as `none`); and `astype(str)` on a float64 cell of
value 123.0 yields `"123.0"`, not `"123"`. -/
theorem ledger_normalize_float_string_counterexample :
    normLedgerId (some "123.0") = none ∧
      pyStr (Cell.floatInt 123) = "123.0" := by
  exact ⟨by decide, by decide⟩

/-- C4 (amended): the ledger normalization maps a null or empty `Pos Id` to
`""` and otherwise applies Python `int()` to the cell's string: whenever
`int()` accepts the string (an optionally signed digit string), the result
is the decimal integer representation, which carries no leading zeros and no
fractional suffix (so `"007"` becomes `"7"`); on any other string —
including `"123.0"` — `int()` raises and the run aborts.  The workbook
loader's `astype(str)` yields that same integer string only for `int`-typed
cells; a float64 cell of integral value is rendered with a `".0"` suffix. -/
theorem identifier_normalization_amended :
    (∀ s n, pyIntOfString s = some n →
      normLedgerId (some s) = some (intRepr n) ∧
        hasLeadingZero (intRepr n).data = false ∧ '.' ∉ (intRepr n).data) ∧
    (normLedgerId none = some "" ∧ normLedgerId (some "") = some "") ∧
    (∀ n : Int, pyStr (Cell.int n) = intRepr n) ∧
    (∀ n : Int, pyStr (Cell.floatInt n) = intRepr n ++ ".0") := by
  refine ⟨?_, ⟨rfl, rfl⟩, fun n => rfl, fun n => rfl⟩
  intro s n h
  have hs : s ≠ "" := by
    intro hcon
    have hnone : pyIntOfString "" = none := by decide
    rw [hcon, hnone] at h
    exact Option.noConfusion h
  refine ⟨?_, intRepr_no_leading_zero n, intRepr_no_dot n⟩
  show (if s = "" then some "" else (pyIntOfString s).map fun n => pyStrip (intRepr n)) =
    some (intRepr n)
  rw [if_neg hs, h, Option.map_some', pyStrip_intRepr]

/-- C4 witness: at the concrete zero-padded input `"007"`, `int()` accepts
and the amended normalization statement produces `"7"`. -/
theorem identifier_normalization_amended_witness :
    normLedgerId (some "007") = some "7" := by
  have h := (identifier_normalization_amended.1 "007" 7 (by decide)).1
  rw [h]
  decide

/-! ## Claim C8 — idempotence of the two normalizations -/

/-- C8 (confirmed): both normalizations are idempotent on every input where
they succeed.  The workbook form (`astype(str)`, line 34) applied to its own
result — a string cell — returns it verbatim; the ledger form (line 65)
maps its own output back to itself, because Python `int` re-parses the
decimal representation `str(n)` to `n`.  (Currency-formatted strings such as
`"$1,234"` make the ledger form raise, so they fall outside its success
domain, and the workbook form keeps them verbatim.) -/
theorem normalization_idempotent :
    (∀ c : Cell, pyStr (Cell.str (pyStr c)) = pyStr c) ∧
    (∀ x y, normLedgerId x = some y → normLedgerId (some y) = some y) := by
  refine ⟨fun c => rfl, ?_⟩
  intro x y h
  match x with
  | none =>
    have hy : y = "" := by
      have : some "" = some y := h
      exact (Option.some.injEq _ _ ▸ this).symm
    rw [hy]
    rfl
  | some s =>
    by_cases hs : s = ""
    · rw [hs] at h
      have : some "" = some y := h
      have hy : y = "" := (Option.some.injEq _ _ ▸ this).symm
      rw [hy]
      rfl
    · have h' : (pyIntOfString s).map (fun n => pyStrip (intRepr n)) = some y := by
        have : normLedgerId (some s) =
            (pyIntOfString s).map (fun n => pyStrip (intRepr n)) := by
          show (if s = "" then some "" else _) = _
          rw [if_neg hs]
        rw [← this, h]
      obtain ⟨n, hn, hy⟩ := Option.map_eq_some'.mp h'
      have hy' : y = intRepr n := by rw [← hy, pyStrip_intRepr]
      rw [hy']
      show (if intRepr n = "" then some ""
        else (pyIntOfString (intRepr n)).map fun n => pyStrip (intRepr n)) = some (intRepr n)
      rw [if_neg (intRepr_ne_empty n), pyIntOfString_intRepr, Option.map_some',
        pyStrip_intRepr]

/-- C8 witness: normalizing the ledger form's own output `"7"` (obtained
from `"007"`) is a fixed point. -/
theorem normalization_idempotent_witness :
    normLedgerId (some "7") = some "7" :=
  normalization_idempotent.2 (some "007") "7" (by decide)

/-! ## Claim C7 — Section Extractor adjacency -/

/-- C7 (confirmed): the extractor emits a Section at position `i` exactly
when header `i` contains the identifier marker and header `i + 1` exists and
contains the amount marker; an identifier-like header with no qualifying
successor is skipped.  Hence `[A, "Mashgin ID #", "Sales $", B]` yields
exactly the Section at position 1 (for every `A` and `B`: position 0 cannot
qualify because `"Mashgin ID #"` does not contain `"Sales $"`), and
`["Mashgin ID #", B, "Sales $"]` yields none when `B` matches neither
marker. -/
theorem section_extractor_adjacency :
    (∀ (headers : List String) (i : Nat),
      i ∈ dfFindPairs loaderIdMarker amountMarker headers ↔
        i + 1 < headers.length ∧
          pyIn loaderIdMarker (headers.getD i "") = true ∧
          pyIn amountMarker (headers.getD (i + 1) "") = true) ∧
    (∀ A B : String,
      dfFindPairs loaderIdMarker amountMarker [A, "Mashgin ID #", "Sales $", B] = [1]) ∧
    (∀ B : String, pyIn loaderIdMarker B = false → pyIn amountMarker B = false →
      dfFindPairs loaderIdMarker amountMarker ["Mashgin ID #", B, "Sales $"] = []) := by
  refine ⟨?_, ?_, ?_⟩
  · intro headers i
    rw [dfFindPairs, List.mem_filter, List.mem_range]
    constructor
    · rintro ⟨hi, hp⟩
      simp only [Bool.and_eq_true, decide_eq_true_eq] at hp
      exact ⟨hp.1.2, hp.1.1, hp.2⟩
    · rintro ⟨h1, h2, h3⟩
      refine ⟨by omega, ?_⟩
      simp only [Bool.and_eq_true, decide_eq_true_eq]
      exact ⟨⟨h2, h1⟩, h3⟩
  · intro A B
    have e1 : pyIn amountMarker "Mashgin ID #" = false := by decide
    have e2 : pyIn loaderIdMarker "Mashgin ID #" = true := by decide
    have e3 : pyIn amountMarker "Sales $" = true := by decide
    have e4 : pyIn loaderIdMarker "Sales $" = false := by decide
    show List.filter _ (List.range 4) = [1]
    rw [show List.range 4 = [0, 1, 2, 3] from rfl]
    simp [List.filter_cons, List.getD, e1, e2, e3, e4]
  · intro B hB1 hB2
    have e2 : pyIn loaderIdMarker "Mashgin ID #" = true := by decide
    have e4 : pyIn loaderIdMarker "Sales $" = false := by decide
    show List.filter _ (List.range 3) = []
    rw [show List.range 3 = [0, 1, 2] from rfl]
    simp [List.filter_cons, List.getD, e2, e4, hB1, hB2]

/-- C7 witness: at the concrete separator header `"x"` (which matches
neither marker), the non-adjacent layout yields no Section. -/
theorem section_extractor_adjacency_witness :
    dfFindPairs loaderIdMarker amountMarker ["Mashgin ID #", "x", "Sales $"] = [] :=
  section_extractor_adjacency.2.2 "x" (by decide) (by decide)

/-! ## Claim C3 — the Report Writer does not re-run the same extractor -/

/-- C3: `save_report` scans with the marker `"Mashgin ID#"` (line 168, no
space before `#`) while `load_aisle_data` scans with `"Mashgin ID #"`
(line 22).  On the very headers the loader matches, the writer finds no
column pair, so the two scans do not agree and the write-back loop never
fires on loader-extracted sections. -/
theorem writer_loader_marker_mismatch :
    dfFindPairs loaderIdMarker amountMarker ["Mashgin ID #", "Sales $"] = [0] ∧
    dfFindPairs writerIdMarker amountMarker ["Mashgin ID #", "Sales $"] = [] ∧
    loaderIdMarker ≠ writerIdMarker := by
  exact ⟨by decide, by decide, by decide⟩

/-! ## Claim C1 — `merge_data` does not produce a "Total Sales $" column -/

/-- C1: on the canonical fact table (one row, identifier `"1"`, amount 10)
and a matching ledger row, `merge_data` returns a frame whose columns are
exactly `["Mashgin ID", "Sales $"]`: no `"Total Sales $"` column is ever
added (contradicting the comment on line 87), and in general the output
column list is the input column list — the function only assigns to
existing amount columns. -/
theorem merge_data_no_total_sales_column :
    (merge_data (canonicalDF [("1", 10)]) [⟨"1", 100, 1⟩]).cols =
      ["Mashgin ID", "Sales $"] ∧
    "Total Sales $" ∉ (merge_data (canonicalDF [("1", 10)]) [⟨"1", 100, 1⟩]).cols ∧
    (∀ adf idf, (merge_data adf idf).cols = adf.cols) := by
  exact ⟨by decide, by decide, fun adf idf => rfl⟩

/-! ## Claim C10 — a workbook with no "aisle 1" sheet aborts after backup -/

/-- C10 (confirmed): when no sheet name lowercases to `"aisle 1"`, the
selection loop collects no sections, `pd.concat([])` on line 33 raises, and
`main` catches the exception at line 228 — after `backup_file` (line 223)
has already run, and before `save_report` (line 227, the only writer of the
updated workbook and the flat report) is reached. -/
theorem no_aisle_sheet_aborts (sheets : List Sheet)
    (h : ∀ sh ∈ sheets, sheetSelected sh.name = false) :
    load_aisle_data sheets = none ∧
      runMain true true sheets = ⟨true, RunStage.abortedInLoad⟩ := by
  have hfilter : sheets.filter (fun sh => sheetSelected sh.name) = [] := by
    rw [List.filter_eq_nil_iff]
    intro sh hsh
    rw [h sh hsh]
    exact Bool.false_ne_true
  have hsections : loadAisleSections sheets = [] := by
    rw [loadAisleSections, hfilter]
    rfl
  have hload : load_aisle_data sheets = none := by
    rw [load_aisle_data, hsections]
    rfl
  refine ⟨hload, ?_⟩
  rw [runMain]
  simp [hload]

/-- C10 witness: a workbook holding only a sheet named `"Sheet1"`. -/
theorem no_aisle_sheet_aborts_witness :
    runMain true true [⟨"Sheet1", ["a", "b"]⟩] = ⟨true, RunStage.abortedInLoad⟩ :=
  (no_aisle_sheet_aborts [⟨"Sheet1", ["a", "b"]⟩] (by decide)).2

/-! ## Claim C9 — which extracted rows reach the Canonical Fact Table -/

/-- C9 counterexample: the claim keeps rows with exactly one missing field,
but `dropna()` (line 33) drops a row whose Identifier is present and whose
Amount is missing. -/
theorem dropna_single_missing_counterexample :
    loadCanonicalRows [(some (Cell.int 5), none)] = [] := by decide

/-- C9 (amended): `dropna()` drops exactly the rows in which *either* field
is missing — so a row with only one missing field is dropped too — and
`astype(str)` never fails, so no row is dropped for an unparseable
identifier: every row with both fields present survives, with its
identifier stringified.  The Raw Sheet Tables keep the selected sheets
unmodified. -/
theorem canonical_drop_rule_amended :
    (∀ l1 l2 (p : Option Cell × Option Cell), p.1 = none ∨ p.2 = none →
      loadCanonicalRows (l1 ++ p :: l2) = loadCanonicalRows (l1 ++ l2)) ∧
    (∀ l1 l2 (p : Option Cell × Option Cell), p.1.isSome → p.2.isSome →
      loadCanonicalRows (l1 ++ p :: l2) =
        loadCanonicalRows l1 ++ (astypeStr p.1, p.2) :: loadCanonicalRows l2) ∧
    (∀ sheets, rawSheetData sheets ⊆ sheets) := by
  refine ⟨?_, ?_, ?_⟩
  · intro l1 l2 p hp
    simp only [loadCanonicalRows, dropnaPairs, List.filter_append,
      List.filter_cons, List.map_append]
    rcases hp with h | h <;> simp [isna, h]
  · intro l1 l2 p h1 h2
    have e1 : isna p.1 = false := by
      cases hp1 : p.1
      · rw [hp1] at h1
        exact absurd h1 (by decide)
      · simp [isna, hp1]
    have e2 : isna p.2 = false := by
      cases hp2 : p.2
      · rw [hp2] at h2
        exact absurd h2 (by decide)
      · simp [isna, hp2]
    simp [loadCanonicalRows, dropnaPairs, List.filter_append,
      List.filter_cons, List.map_append, e1, e2]
  · intro sheets sh hsh
    exact List.mem_of_mem_filter hsh

/-- C9 witness: a concrete one-field-missing row contributes nothing. -/
theorem canonical_drop_rule_amended_witness :
    loadCanonicalRows [(some (Cell.int 6), none)] = loadCanonicalRows [] :=
  canonical_drop_rule_amended.1 [] [] (some (Cell.int 6), none) (Or.inr rfl)

/-! ## Lemmas: the groupby key sort -/

theorem mem_insertSortedStr (x y : String) (l : List String) :
    y ∈ insertSortedStr x l ↔ y = x ∨ y ∈ l := by
  induction l with
  | nil => simp [insertSortedStr]
  | cons a t ih =>
    rw [insertSortedStr]
    by_cases h : strLeB x a = true
    · rw [if_pos h]
      exact List.mem_cons
    · rw [if_neg h, List.mem_cons, ih, List.mem_cons]
      tauto

theorem nodup_insertSortedStr (x : String) (l : List String)
    (hnd : l.Nodup) (hx : x ∉ l) : (insertSortedStr x l).Nodup := by
  induction l with
  | nil => simp [insertSortedStr]
  | cons a t ih =>
    rw [insertSortedStr]
    rw [List.nodup_cons] at hnd
    by_cases h : strLeB x a = true
    · rw [if_pos h, List.nodup_cons]
      exact ⟨hx, List.nodup_cons.mpr hnd⟩
    · rw [if_neg h, List.nodup_cons]
      constructor
      · intro hmem
        rcases (mem_insertSortedStr x a t).mp hmem with heq | hat
        · exact hx (heq ▸ List.mem_cons_self a t)
        · exact hnd.1 hat
      · exact ih hnd.2 fun hxt => hx (List.mem_cons_of_mem _ hxt)

theorem mem_sortStr (y : String) (l : List String) : y ∈ sortStr l ↔ y ∈ l := by
  induction l with
  | nil => simp [sortStr]
  | cons a t ih =>
    rw [sortStr, mem_insertSortedStr, ih, List.mem_cons]

theorem nodup_sortStr (l : List String) (h : l.Nodup) : (sortStr l).Nodup := by
  induction l with
  | nil => simp [sortStr]
  | cons a t ih =>
    rw [sortStr]
    rw [List.nodup_cons] at h
    exact nodup_insertSortedStr a (sortStr t) (ih h.2)
      fun hmem => h.1 ((mem_sortStr a t).mp hmem)

/-- `duplicated().any()` is false exactly on duplicate-free key lists. -/
theorem listHasDup_eq_false_iff (l : List String) :
    listHasDup l = false ↔ l.Nodup := by
  induction l with
  | nil => simp [listHasDup]
  | cons x t ih =>
    show (t.contains x || listHasDup t) = false ↔ (x :: t).Nodup
    rw [Bool.or_eq_false_iff, List.nodup_cons, ih]
    constructor
    · rintro ⟨h1, h2⟩
      refine ⟨fun hmem => ?_, h2⟩
      rw [← List.elem_iff] at hmem
      have hmem' : t.contains x = true := hmem
      rw [h1] at hmem'
      exact Bool.false_ne_true hmem'
    · rintro ⟨h1, h2⟩
      refine ⟨?_, h2⟩
      cases hc : t.contains x
      · rfl
      · exact absurd (List.elem_iff.mp hc) h1

/-- In a frame with duplicate-free identifiers, filtering by a member's
identifier recovers exactly that member. -/
theorem filter_id_singleton (rows : List LedgerRow)
    (hnd : (rows.map fun r => r.id).Nodup) :
    ∀ r ∈ rows, rows.filter (fun x => x.id == r.id) = [r] := by
  induction rows with
  | nil => intro r hr; cases hr
  | cons a t ih =>
    intro r hr
    rw [List.map_cons, List.nodup_cons] at hnd
    rcases List.mem_cons.mp hr with rfl | hrt
    · rw [List.filter_cons]
      simp only [beq_self_eq_true, if_pos]
      have ht : t.filter (fun x => x.id == r.id) = [] := by
        rw [List.filter_eq_nil_iff]
        intro x hx hbeq
        rw [beq_iff_eq] at hbeq
        exact hnd.1 (hbeq ▸ List.mem_map.mpr ⟨x, hx, rfl⟩)
      rw [ht]
    · have hne : (a.id == r.id) = false := by
        rw [beq_eq_false_iff_ne]
        intro he
        exact hnd.1 (he ▸ List.mem_map.mpr ⟨r, hrt, rfl⟩)
      rw [List.filter_cons, hne]
      simp only [if_neg, Bool.false_eq_true, not_false_iff]
      exact ih hnd.2 r hrt

/-! ## Claim C6 — ledger duplicate collapse -/

/-- C6 (confirmed): after normalization the ledger loader leaves exactly one
row per distinct identifier — the identifiers of the result are
duplicate-free yet cover exactly the input identifiers — and each surviving
row's amount and count are the sums over all input rows sharing its
identifier (when no identifier repeats, the frame is returned unchanged,
and the sums degenerate to the row itself).  On the claim's example,
`[(id=7, amt=10, cnt=1), (id=7, amt=5, cnt=2)]` collapses to the single row
`(id=7, amt=15, cnt=3)`. -/
theorem ledger_duplicate_collapse (rows : List LedgerRow) :
    ((collapseDuplicates rows).map fun r => r.id).Nodup ∧
    (∀ k, (k ∈ (collapseDuplicates rows).map fun r => r.id) ↔
      (k ∈ rows.map fun r => r.id)) ∧
    (∀ r ∈ collapseDuplicates rows,
      r.sales = ((rows.filter fun x => x.id == r.id).map fun x => x.sales).sum ∧
      r.count = ((rows.filter fun x => x.id == r.id).map fun x => x.count).sum) ∧
    collapseDuplicates [⟨"7", 10, 1⟩, ⟨"7", 5, 2⟩] = [⟨"7", 15, 3⟩] := by
  by_cases hdup : listHasDup (rows.map fun r => r.id) = true
  · have hco : collapseDuplicates rows = (groupKeys rows).map fun k =>
        ({ id := k
           sales := ((rows.filter fun x => x.id == k).map fun x => x.sales).sum
           count := ((rows.filter fun x => x.id == k).map fun x => x.count).sum } :
          LedgerRow) := by
      rw [collapseDuplicates, if_pos hdup]
    have hids : ((collapseDuplicates rows).map fun r => r.id) = groupKeys rows := by
      rw [hco, List.map_map]
      exact List.map_id' _
    refine ⟨?_, ?_, ?_, by decide⟩
    · rw [hids]
      exact nodup_sortStr _ (List.nodup_dedup _)
    · intro k
      rw [hids, groupKeys, mem_sortStr, List.mem_dedup]
    · intro r hr
      rw [hco] at hr
      obtain ⟨k, hk, rfl⟩ := List.mem_map.mp hr
      exact ⟨rfl, rfl⟩
  · have hco : collapseDuplicates rows = rows := by
      rw [collapseDuplicates, if_neg hdup]
    have hnd : (rows.map fun r => r.id).Nodup := by
      apply (listHasDup_eq_false_iff _).mp
      revert hdup
      cases listHasDup (rows.map fun r => r.id) <;> simp
    refine ⟨?_, ?_, ?_, by decide⟩
    · rw [hco]
      exact hnd
    · intro k
      rw [hco]
    · intro r hr
      rw [hco] at hr
      rw [filter_id_singleton rows hnd r hr]
      constructor <;> simp

/-- C6 witness: the claim's concrete example, fed through the theorem — the
collapsed identifiers are duplicate-free and the surviving row `(7, 15, 3)`
carries the summed amount and count. -/
theorem ledger_duplicate_collapse_witness :
    ((collapseDuplicates [⟨"7", 10, 1⟩, ⟨"7", 5, 2⟩]).map fun r => r.id).Nodup ∧
    ((⟨"7", 15, 3⟩ : LedgerRow).sales =
      ((([⟨"7", 10, 1⟩, ⟨"7", 5, 2⟩] : List LedgerRow).filter
        fun x => x.id == (⟨"7", 15, 3⟩ : LedgerRow).id).map fun x => x.sales).sum) := by
  refine ⟨(ledger_duplicate_collapse _).1, ?_⟩
  exact ((ledger_duplicate_collapse [⟨"7", 10, 1⟩, ⟨"7", 5, 2⟩]).2.2.1
    ⟨"7", 15, 3⟩ (by decide)).1

/-! ## Claim C2 — the Reconciler's left join -/

/-- With duplicate-free ledger identifiers, `find?` locates exactly the
member carrying a given identifier. -/
theorem ledger_find_eq_of_mem (idf : List LedgerRow)
    (huniq : (idf.map fun r => r.id).Nodup) (lr : LedgerRow) (hmem : lr ∈ idf)
    (s : String) (hid : lr.id = s) :
    idf.find? (fun r => s == r.id) = some lr := by
  cases hfind : idf.find? (fun r => s == r.id) with
  | none =>
    rw [List.find?_eq_none] at hfind
    exact absurd (by rw [← hid]; exact beq_self_eq_true _) (hfind lr hmem)
  | some a =>
    have ha := List.find?_some hfind
    have hamem : a ∈ idf := List.mem_of_find?_eq_some hfind
    have haid : a.id = s := (beq_iff_eq.mp ha).symm
    have : a = lr :=
      List.inj_on_of_nodup_map huniq hamem hmem (by rw [haid, hid])
    rw [this]

/-- The row produced by `merge_data` at position `i` of the canonical fact
table: the identifier cell is untouched and the amount cell is the joined
ledger amount when a ledger row matches, else the original amount. -/
theorem merge_data_row (facts : List (String × ℚ)) (idf : List LedgerRow)
    (i : Nat) (h : i < facts.length) :
    (merge_data (canonicalDF facts) idf).rows.getD i [] =
      match idf.find? (fun r => (facts.getD i ("", 0)).1 == r.id) with
      | some lr =>
        [some (Cell.str (facts.getD i ("", 0)).1), some (Cell.q lr.sales)]
      | none =>
        [some (Cell.str (facts.getD i ("", 0)).1),
         some (Cell.q (facts.getD i ("", 0)).2)] := by
  have hgd : facts.getD i ("", 0) = facts[i] := List.getD_eq_getElem _ _ h
  have hpairs : dfFindPairs mergeIdMarker amountMarker ["Mashgin ID", "Sales $"] = [0] := by
    decide
  show ((facts.map fun p => [some (Cell.str p.1), some (Cell.q p.2)]).map fun row =>
      (dfFindPairs mergeIdMarker amountMarker ["Mashgin ID", "Sales $"]).foldl
        (mergeRowUpdate idf row) row).getD i [] = _
  rw [hpairs, List.map_map, hgd]
  have hlen : i < (facts.map ((fun row =>
      List.foldl (mergeRowUpdate idf row) row [0]) ∘ fun p =>
        [some (Cell.str p.1), some (Cell.q p.2)])).length := by
    rw [List.length_map]
    exact h
  rw [List.getD_eq_getElem _ _ hlen, List.getElem_map]
  show List.foldl
      (mergeRowUpdate idf [some (Cell.str facts[i].1), some (Cell.q facts[i].2)])
      [some (Cell.str facts[i].1), some (Cell.q facts[i].2)] [0] = _
  rw [List.foldl_cons, List.foldl_nil, mergeRowUpdate]
  have hkey : ledgerLookup idf
      (([some (Cell.str facts[i].1), some (Cell.q facts[i].2)] :
        List (Option Cell)).getD 0 none) =
      idf.find? (fun r => facts[i].1 == r.id) := rfl
  rw [hkey]
  cases hfind : idf.find? (fun r => facts[i].1 == r.id) with
  | none => rfl
  | some lr => rfl

/-- C2 (confirmed): on any canonical fact table (left) and any ledger table
with duplicate-free identifiers (right — the shape `load_import_csv`
guarantees), `merge_data` returns exactly one output row per left row, in
order; row `i` keeps its identifier, its amount cell is the matching ledger
row's amount when a row with the same normalized identifier exists and the
original amount otherwise, and no cell of the row is ever null. -/
theorem merge_data_left_join_total (facts : List (String × ℚ))
    (idf : List LedgerRow) (huniq : (idf.map fun r => r.id).Nodup) :
    (merge_data (canonicalDF facts) idf).rows.length = facts.length ∧
    ∀ i, i < facts.length →
      (∀ lr ∈ idf, lr.id = (facts.getD i ("", 0)).1 →
        (merge_data (canonicalDF facts) idf).rows.getD i [] =
          [some (Cell.str (facts.getD i ("", 0)).1), some (Cell.q lr.sales)]) ∧
      ((∀ lr ∈ idf, lr.id ≠ (facts.getD i ("", 0)).1) →
        (merge_data (canonicalDF facts) idf).rows.getD i [] =
          [some (Cell.str (facts.getD i ("", 0)).1),
           some (Cell.q (facts.getD i ("", 0)).2)]) ∧
      ∀ c ∈ (merge_data (canonicalDF facts) idf).rows.getD i [], c ≠ none := by
  constructor
  · show ((canonicalDF facts).rows.map _).length = facts.length
    rw [List.length_map]
    simp [canonicalDF]
  · intro i hi
    refine ⟨?_, ?_, ?_⟩
    · intro lr hmem hid
      rw [merge_data_row facts idf i hi,
        ledger_find_eq_of_mem idf huniq lr hmem _ hid]
    · intro hnomatch
      rw [merge_data_row facts idf i hi]
      have hnone : idf.find? (fun r => (facts.getD i ("", 0)).1 == r.id) = none := by
        rw [List.find?_eq_none]
        intro x hx hbeq
        exact hnomatch x hx (beq_iff_eq.mp hbeq).symm
      rw [hnone]
    · intro c hc
      rw [merge_data_row facts idf i hi] at hc
      cases hfind : idf.find? (fun r => (facts.getD i ("", 0)).1 == r.id) with
      | none =>
        rw [hfind] at hc
        simp only [List.mem_cons, List.not_mem_nil, or_false] at hc
        rcases hc with rfl | rfl <;> simp
      | some lr =>
        rw [hfind] at hc
        simp only [List.mem_cons, List.not_mem_nil, or_false] at hc
        rcases hc with rfl | rfl <;> simp

/-- C2 witness: one matched fact (`"1"`, resolved to the ledger's 100) and
one unmatched fact (`"2"`, keeping its original 20). -/
theorem merge_data_left_join_total_witness :
    (merge_data (canonicalDF [("1", 10), ("2", 20)]) [⟨"1", 100, 3⟩]).rows.getD 0 [] =
      [some (Cell.str "1"), some (Cell.q 100)] ∧
    (merge_data (canonicalDF [("1", 10), ("2", 20)]) [⟨"1", 100, 3⟩]).rows.getD 1 [] =
      [some (Cell.str "2"), some (Cell.q 20)] := by
  have h := merge_data_left_join_total [("1", 10), ("2", 20)] [⟨"1", 100, 3⟩] (by decide)
  constructor
  · exact ((h.2 0 (by decide)).1 ⟨"1", 100, 3⟩ (by decide) rfl)
  · exact ((h.2 1 (by decide)).2.1 (by decide))

/-! ## Lemmas: the currency grammar and `float` parsing -/

/-- A digit character is none of the special characters handled by the
parsers. -/
theorem isDigit_ne_specials (c : Char) (h : c.isDigit = true) :
    c ≠ '+' ∧ c ≠ '-' ∧ c ≠ '$' ∧ c ≠ ',' ∧ c ≠ '.' := by
  refine ⟨?_, ?_, ?_, ?_, ?_⟩ <;> (intro heq; subst heq; exact absurd h (by decide))

/-- A digit character is not whitespace. -/
theorem isDigit_not_ws (c : Char) (h : c.isDigit = true) : c.isWhitespace = false := by
  have hval : 48 ≤ c.val ∧ c.val ≤ 57 := by simpa [Char.isDigit] using h
  cases hw : c.isWhitespace
  · rfl
  · exfalso
    have hw' : ((c = ' ' ∨ c = '\t') ∨ c = '\x0d') ∨ c = '\n' := by
      simpa [Char.isWhitespace] using hw
    rcases hw' with ((rfl | rfl) | rfl) | rfl <;> revert hval <;> decide

/-- A digit survives the `$`/`,` removal. -/
theorem keep_of_digit (c : Char) (h : c.isDigit = true) :
    (!(c = '$' || c = ',') : Bool) = true := by
  obtain ⟨-, -, h3, h4, -⟩ := isDigit_ne_specials c h
  simp [h3, h4]

theorem takeWhile_all_eq {p : Char → Bool} (l : List Char)
    (h : ∀ c ∈ l, p c = true) : l.takeWhile p = l ∧ l.dropWhile p = [] := by
  induction l with
  | nil => exact ⟨rfl, rfl⟩
  | cons x t ih =>
    have hx := h x (by simp)
    have iht := ih fun y hy => h y (by simp [hy])
    rw [List.takeWhile_cons, List.dropWhile_cons]
    simp [hx, iht.1, iht.2]

theorem takeWhile_append_stop {p : Char → Bool} (a : List Char) (c : Char)
    (d : List Char) (ha : ∀ x ∈ a, p x = true) (hc : p c = false) :
    ((a ++ c :: d).takeWhile p = a) ∧ ((a ++ c :: d).dropWhile p = c :: d) := by
  induction a with
  | nil => simp [List.takeWhile_cons, List.dropWhile_cons, hc]
  | cons x t ih =>
    have hx : p x = true := ha x (by simp)
    have iht := ih fun y hy => ha y (by simp [hy])
    simp [List.takeWhile_cons, List.dropWhile_cons, hx, iht.1, iht.2]

/-- `float()` accepts a nonempty pure digit string. -/
theorem pyFloatCore_digits (A : List Char) (hA : ∀ c ∈ A, c.isDigit = true)
    (hne : A ≠ []) : ∃ q, pyFloatCore A = some q := by
  obtain ⟨ht, hd⟩ := takeWhile_all_eq A hA
  have hie : A.isEmpty = false := by
    cases A
    · exact absurd rfl hne
    · rfl
  rw [pyFloatCore.eq_def, hd]
  simp only [ht, hie]
  exact ⟨(digitsVal A : ℚ), by simp⟩

/-- `float()` accepts digits, a decimal point and a nonempty digit
fraction. -/
theorem pyFloatCore_digits_dot (A fp : List Char)
    (hA : ∀ c ∈ A, c.isDigit = true) (hfp : ∀ c ∈ fp, c.isDigit = true)
    (hne : fp ≠ []) : ∃ q, pyFloatCore (A ++ '.' :: fp) = some q := by
  obtain ⟨ht, hd⟩ := takeWhile_append_stop A '.' fp hA (by decide)
  have hfpe : fp.isEmpty = false := by
    cases fp
    · exact absurd rfl hne
    · rfl
  have hfpall : fp.all Char.isDigit = true := List.all_eq_true.mpr hfp
  rw [pyFloatCore.eq_def, hd]
  simp only [ht, hfpall, hfpe]
  exact ⟨(digitsVal A : ℚ) + (digitsVal fp : ℚ) / (10 : ℚ) ^ fp.length, by simp⟩

/-- On a whitespace-free, sign-free string, `float()` is the core numeral
parse. -/
theorem pyFloatOfString_no_sign (l : List Char)
    (hws : ∀ c ∈ l, c.isWhitespace = false)
    (hhead : ∀ c rest, l = c :: rest → c ≠ '+' ∧ c ≠ '-') :
    pyFloatOfString ⟨l⟩ = pyFloatCore l := by
  have hstrip : (pyStrip ⟨l⟩).data = l := by
    show (⟨stripChars l⟩ : String).data = l
    rw [stripChars_no_ws l hws]
  rw [pyFloatOfString.eq_def, hstrip]
  cases l with
  | nil => rfl
  | cons c rest =>
    obtain ⟨h1, h2⟩ := hhead c rest rfl
    simp only [if_neg h1, if_neg h2]

/-- Any section of the grammar's `[0-9,]+` block is all digits after the
`$`/`,` removal. -/
theorem body_filter_digits (body : List Char)
    (hbody : ∀ c ∈ body, (c.isDigit || c == ',') = true) :
    ∀ c ∈ body.filter fun c => !(c = '$' || c = ','), c.isDigit = true := by
  intro c hc
  obtain ⟨hcb, hkeep⟩ := List.mem_filter.mp hc
  rcases Bool.or_eq_true _ _ ▸ hbody c hcb with hd | hcomma
  · exact hd
  · exfalso
    have : c = ',' := beq_iff_eq.mp hcomma
    subst this
    exact absurd hkeep (by decide)

/-- The heart of the amended totality statement: a string matching the
grammar body (after the optional `$`) and containing a digit parses. -/
theorem grammar_body_parses (l : List Char)
    (hg : (!(l.takeWhile fun c => c.isDigit || c == ',').isEmpty &&
      fracCheck (l.dropWhile fun c => c.isDigit || c == ',')) = true)
    (hdig : ∃ c ∈ l, c.isDigit = true) :
    ∃ q, pyFloatOfString ⟨l.filter fun c => !(c = '$' || c = ',')⟩ = some q := by
  rw [Bool.and_eq_true] at hg
  obtain ⟨hbody, hfrac⟩ := hg
  have hsplit : (l.takeWhile fun c => c.isDigit || c == ',') ++
      (l.dropWhile fun c => c.isDigit || c == ',') = l :=
    List.takeWhile_append_dropWhile _ _
  have hbody_mem : ∀ c ∈ (l.takeWhile fun c => c.isDigit || c == ','),
      (c.isDigit || c == ',') = true := by
    intro c hc
    have h2 := List.mem_takeWhile_imp hc
    exact h2
  have hbodyD := body_filter_digits _ hbody_mem
  cases hrest : l.dropWhile fun c => c.isDigit || c == ',' with
  | nil =>
    rw [hrest] at hsplit
    rw [List.append_nil] at hsplit
    have hfilter : (l.filter fun c => !(c = '$' || c = ',')) =
        ((l.takeWhile fun c => c.isDigit || c == ',').filter
          fun c => !(c = '$' || c = ',')) := by
      conv_lhs => rw [← hsplit]
    have hne : ((l.takeWhile fun c => c.isDigit || c == ',').filter
        fun c => !(c = '$' || c = ',')) ≠ [] := by
      obtain ⟨c, hcl, hcd⟩ := hdig
      rw [← hsplit] at hcl
      exact List.ne_nil_of_mem
        (List.mem_filter.mpr ⟨hcl, keep_of_digit c hcd⟩)
    rw [hfilter, pyFloatOfString_no_sign]
    · exact pyFloatCore_digits _ hbodyD hne
    · intro c hc
      exact isDigit_not_ws c (hbodyD c hc)
    · intro c rest heq
      have hc : c.isDigit = true := hbodyD c (heq ▸ List.mem_cons_self c rest)
      exact ⟨(isDigit_ne_specials c hc).1, (isDigit_ne_specials c hc).2.1⟩
  | cons c fp =>
    rw [hrest] at hsplit hfrac
    have hfrac' : (c == '.') = true ∧ fp.isEmpty = false ∧
        fp.all Char.isDigit = true := by
      rw [fracCheck] at hfrac
      rw [Bool.and_eq_true, Bool.and_eq_true] at hfrac
      exact ⟨hfrac.1.1, by
        have := hfrac.1.2
        cases hfpe : fp.isEmpty
        · rfl
        · rw [hfpe] at this; exact absurd this (by decide), hfrac.2⟩
    have hcdot : c = '.' := beq_iff_eq.mp hfrac'.1
    subst hcdot
    have hfpne : fp ≠ [] := by
      intro hcon
      rw [hcon] at hfrac'
      exact absurd hfrac'.2.1 (by decide)
    have hfpd : ∀ x ∈ fp, x.isDigit = true := List.all_eq_true.mp hfrac'.2.2
    have hfilter : (l.filter fun c => !(c = '$' || c = ',')) =
        ((l.takeWhile fun c => c.isDigit || c == ',').filter
          fun c => !(c = '$' || c = ',')) ++ '.' :: fp := by
      conv_lhs => rw [← hsplit]
      rw [List.filter_append, List.filter_cons_of_pos (by decide),
        List.filter_eq_self.mpr fun x hx => keep_of_digit x (hfpd x hx)]
    rw [hfilter, pyFloatOfString_no_sign]
    · exact pyFloatCore_digits_dot _ fp hbodyD hfpd hfpne
    · intro x hx
      rcases List.mem_append.mp hx with hxa | hxb
      · exact isDigit_not_ws x (hbodyD x hxa)
      · rcases List.mem_cons.mp hxb with rfl | hxfp
        · decide
        · exact isDigit_not_ws x (hfpd x hxfp)
    · intro x rest heq
      cases hA : (l.takeWhile fun c => c.isDigit || c == ',').filter
          fun c => !(c = '$' || c = ',') with
      | nil =>
        rw [hA] at heq
        rw [List.nil_append] at heq
        cases heq
        exact ⟨by decide, by decide⟩
      | cons a t =>
        rw [hA, List.cons_append] at heq
        have hx : x = a := by
          injection heq with h1 h2
          exact h1.symm
        subst hx
        have hxd : x.isDigit = true := by
          apply hbodyD
          rw [hA]
          exact List.mem_cons_self _ _
        exact ⟨(isDigit_ne_specials x hxd).1, (isDigit_ne_specials x hxd).2.1⟩

/-! ## Claim C5 — totality of the money amount parser over the grammar -/

/-- C5 counterexample: `","` matches the claimed grammar
`[$]?[0-9,]+(\.[0-9]+)?` (the `[0-9,]+` block may be all commas), yet
`float("".join(...))` receives the empty string after separator removal and
raises `ValueError`. -/
theorem currency_grammar_totality_counterexample :
    grammarMatch "," = true ∧ convert_currency_to_float "," = none :=
  ⟨by decide, by decide⟩

/-- C5 (amended): the parser succeeds on every grammar string containing at
least one digit, returning the decimal value with the optional leading `$`
and all commas removed (`"$1,234.50"` parses to 1234.50 and `"1234.5"` to
1234.5), and the empty string fails; but parsing is not total over the full
grammar — digitless grammar strings such as `","` also fail. -/
theorem currency_parser_amended :
    (∀ s : String, grammarMatch s = true → (∃ c ∈ s.data, c.isDigit = true) →
      ∃ q : ℚ, convert_currency_to_float s = some q) ∧
    convert_currency_to_float "$1,234.50" = some (1234.5 : ℚ) ∧
    convert_currency_to_float "1234.5" = some (1234.5 : ℚ) ∧
    convert_currency_to_float "" = none := by
  refine ⟨?_, by decide, by decide, by decide⟩
  intro s hg hdig
  simp only [grammarMatch] at hg
  show ∃ q, pyFloatOfString (stripCurrencyChars s) = some q
  by_cases hdol : s.data.head? = some '$'
  · cases hsd : s.data with
    | nil =>
      rw [hsd] at hdol
      exact absurd hdol (by decide)
    | cons c r =>
      have hc : c = '$' := by
        rw [hsd] at hdol
        simpa using hdol
      subst hc
      rw [hsd] at hg
      simp only [List.head?_cons, List.tail_cons, if_pos] at hg
      have hdig' : ∃ x ∈ r, x.isDigit = true := by
        obtain ⟨x, hxl, hxd⟩ := hdig
        rw [hsd] at hxl
        rcases List.mem_cons.mp hxl with rfl | hxr
        · exact absurd hxd (by decide)
        · exact ⟨x, hxr, hxd⟩
      have hfil : stripCurrencyChars s =
          ⟨r.filter fun c => !(c = '$' || c = ',')⟩ := by
        rw [stripCurrencyChars, hsd, List.filter_cons_of_neg (by decide)]
      rw [hfil]
      exact grammar_body_parses r hg hdig'
  · simp only [if_neg hdol] at hg
    show ∃ q, pyFloatOfString ⟨s.data.filter fun c => !(c = '$' || c = ',')⟩ = some q
    exact grammar_body_parses s.data hg hdig

/-- C5 witness: the claim's own example string satisfies the amended
hypotheses and parses. -/
theorem currency_parser_amended_witness :
    grammarMatch "$1,234.50" = true ∧
    ∃ q : ℚ, convert_currency_to_float "$1,234.50" = some q :=
  ⟨by decide, currency_parser_amended.1 "$1,234.50" (by decide) (by decide)⟩
